import Mathlib

/-!
Verification of the prompt-construction and response-reconciliation pipeline
of the Motley Fool AI Copywriter (`streamlit_app_2.py`), shallowly embedded
in Lean.  Python strings are modelled as Lean `String`/`List Char`; Python
integers are arbitrary precision, so `Nat`/`Int` are used directly.  The
externally loaded `traits_config.json` is not part of the source tree, so
every function that reads the global `TRAIT_CFG` takes the configuration as
an explicit parameter (`cfgOf : String → Option TraitCfg`).
-/

namespace MFCopy

/-- Python whitespace characters recognised by `str.strip` / `str.split`. -/
def isPySpace (c : Char) : Bool :=
  c = ' ' || c = '\t' || c = '\n' || c = '\r' || c = '\x0b' || c = '\x0c'

/-- `str.strip()` on the character list: drop whitespace from both ends. -/
def stripChars (l : List Char) : List Char :=
  ((l.dropWhile isPySpace).reverse.dropWhile isPySpace).reverse

/-- Python `s.strip()`. -/
def pyStrip (s : String) : String := ⟨stripChars s.data⟩

/-- Python `pat in s` (substring containment), on character lists. -/
def containsSub (pat : List Char) : List Char → Bool
  | [] => pat.isEmpty
  | c :: rest => pat.isPrefixOf (c :: rest) || containsSub pat rest

/-- Python `s.replace(pat, rep)`: scan left to right replacing each
non-overlapping occurrence.  The fuel argument (instantiated with the input
length, which every scan step strictly decreases by at least one) keeps the
recursion structural so that the definition evaluates by reduction.
(The program only ever replaces non-empty patterns, so the empty-pattern
case keeps the scan well defined by treating it as no occurrence.) -/
def replaceAllAux (pat rep : List Char) : Nat → List Char → List Char
  | 0, l => l
  | fuel + 1, l =>
    match l with
    | [] => []
    | c :: rest =>
      if pat ≠ [] ∧ pat.isPrefixOf (c :: rest) then
        rep ++ replaceAllAux pat rep fuel ((c :: rest).drop pat.length)
      else
        c :: replaceAllAux pat rep fuel rest

def replaceAll (pat rep s : List Char) : List Char :=
  replaceAllAux pat rep s.length s

/-- Python `s.replace(pat, rep)` at the `String` level. -/
def pyReplace (s pat rep : String) : String := ⟨replaceAll pat.data rep.data s.data⟩

/-- Python `s.upper()` (ASCII case mapping suffices for the strings at play). -/
def pyUpper (s : String) : String := ⟨s.data.map Char.toUpper⟩

/-- Python `pat in s` at the `String` level. -/
def pyContains (pat s : String) : Bool := containsSub pat.data s.data

/-! ## 1A / 3A.  Trait configuration and the slider-rule compiler -/

/-- One record of `traits_config.json` (spec section 3, TraitConfig).
`mid_rule` is optional; a present-but-empty `mid_rule` is falsy in Python
and hence never emitted by `trait_rules`. -/
structure TraitCfg where
  high_threshold : Int
  low_threshold : Int
  high_rule : String
  mid_rule : Option String
  low_rule : String
  high_exemplar_allowed : Bool
deriving DecidableEq

/-- The per-trait contribution of `trait_rules` (`streamlit_app_2.py`
lines 101-114): skip unconfigured traits, else emit `high_rule` when
`score >= high_threshold`, `low_rule` when `score <= low_threshold`,
otherwise `mid_rule` when present and truthy. -/
def traitRuleFor (cfgOf : String → Option TraitCfg) (name : String) (score : Int) :
    List String :=
  match cfgOf name with
  | none => []
  | some c =>
    if c.high_threshold ≤ score then [c.high_rule]
    else if score ≤ c.low_threshold then [c.low_rule]
    else
      match c.mid_rule with
      | some m => if m = "" then [] else [m]
      | none => []

/-- `trait_rules` (lines 101-114): the loop over `traits.items()`. -/
def trait_rules (cfgOf : String → Option TraitCfg) : List (String × Int) → List String
  | [] => []
  | (n, s) :: rest => traitRuleFor cfgOf n s ++ trait_rules cfgOf rest

/-- C2: for every trait-score mapping and every configured trait with
thresholds `lo < hi`, the compiler emits `high_rule` exactly on
`score ≥ hi`, `low_rule` exactly on `score ≤ lo`, the configured (truthy)
`mid_rule` exactly on `lo < score < hi`, and nothing otherwise; traits with
no configuration entry produce no rule and no error. -/
theorem trait_rules_bands (cfgOf : String → Option TraitCfg) (name : String)
    (score : Int) (c : TraitCfg) (hc : cfgOf name = some c)
    (hlh : c.low_threshold < c.high_threshold) :
    (c.high_threshold ≤ score → traitRuleFor cfgOf name score = [c.high_rule]) ∧
    (score ≤ c.low_threshold → traitRuleFor cfgOf name score = [c.low_rule]) ∧
    (c.low_threshold < score → score < c.high_threshold →
      traitRuleFor cfgOf name score =
        (match c.mid_rule with
         | some m => if m = "" then [] else [m]
         | none => [])) ∧
    (∀ name2, cfgOf name2 = none → traitRuleFor cfgOf name2 score = []) ∧
    (∀ rest, trait_rules cfgOf ((name, score) :: rest) =
      traitRuleFor cfgOf name score ++ trait_rules cfgOf rest) := by
  refine ⟨?_, ?_, ?_, ?_, ?_⟩
  · intro h
    simp [traitRuleFor, hc, h]
  · intro h
    have h2 : ¬ c.high_threshold ≤ score := by omega
    simp [traitRuleFor, hc, h, h2]
  · intro h1 h2
    have h3 : ¬ c.high_threshold ≤ score := by omega
    have h4 : ¬ score ≤ c.low_threshold := by omega
    simp [traitRuleFor, hc, h3, h4]
  · intro name2 h
    simp [traitRuleFor, h]
  · intro rest
    rfl

/-! ## 4.  Prompt components: the trait guide (lines 149-200) -/

/-- Decimal rendering of a natural number, as Python `str(n)` (digits only,
most significant first). -/
def natToCharsAux : Nat → Nat → List Char → List Char
  | 0, _, acc => acc
  | fuel+1, n, acc =>
    if n < 10 then Nat.digitChar n :: acc
    else natToCharsAux fuel (n / 10) (Nat.digitChar (n % 10) :: acc)

/-- Python `str(n)` for a natural number. -/
def natStr (n : Nat) : String := ⟨natToCharsAux (n + 1) n []⟩

/-- Python `str(i)` for an integer. -/
def intStr (i : Int) : String :=
  if i < 0 then "-" ++ natStr (-i).toNat else natStr i.toNat

/-- `TRAIT_EXAMPLES` (lines 149-190), as the total function
`TRAIT_EXAMPLES.get(name, [])`: three fixed example sentences for each of
the eight built-in traits, the empty list for anything else. -/
def TRAIT_EXAMPLES (name : String) : List String :=
  if name = "Urgency" then
    ["This isn\x27t a drill — once midnight hits, your chance to secure these savings is gone forever.",
     "Time’s ticking — when the clock hits zero tonight, you’re out of luck.",
     "You have exactly one shot. Miss today’s deadline, and it\x27s gone forever."]
  else if name = "Data_Richness" then
    ["Last year alone, our recommendations averaged returns 220% higher than the market average.",
     "Our analysis has identified 73% higher returns than the average ASX investor over three consecutive years.",
     "More than 85% of our recommended stocks outperformed the market last fiscal year alone."]
  else if name = "Social_Proof" then
    ["Thousands of investors trust Motley Fool every year to transform their financial future.",
     "Australia’s leading financial experts have rated us #1 three years in a row.",
     "Join over 125,000 smart investors who rely on Motley Fool’s stock advice every month."]
  else if name = "Comparative_Framing" then
    ["Think back to those who seized early opportunities in the smartphone revolution.",
     "Imagine being among the first to see Netflix’s potential in 2002. That’s the kind of opportunity we’re talking about.",
     "Just like the early days of Tesla, these stocks could define your investing success for years."]
  else if name = "Imagery" then
    ["When that switch flips, the next phase could accelerate even faster.",
     "Think of it as a snowball rolling downhill—small at first, but soon unstoppable.",
     "Like a rocket on the launch pad, the countdown has begun and liftoff is imminent."]
  else if name = "Conversational_Tone" then
    ["Look — investing can feel complicated, but what if it didn\x27t have to be?",
     "We get it—investing can seem overwhelming. But what if you had someone guiding you every step of the way?",
     "Here’s the truth: investing doesn’t have to be complicated. Let’s simplify this together."]
  else if name = "FOMO" then
    ["Opportunities like these pass quickly — and regret can last forever.",
     "Don’t be the one who has to tell their friends, ‘I missed out when I had the chance.’",
     "By tomorrow, your chance to act will be history. Don’t live with that regret."]
  else if name = "Repetition" then
    ["This offer is for today only. Today only means exactly that: today only.",
     "Act now. This offer expires tonight. Again, it expires tonight—no exceptions.",
     "This is a limited-time deal. Limited-time means exactly that: limited-time."]
  else []

/-- The eight trait names of the sidebar sliders (lines 472-481): the keys
of every `trait_scores` mapping the application ever builds. -/
def TRAIT_SCORE_NAMES : List String :=
  ["Urgency", "Data_Richness", "Social_Proof", "Comparative_Framing",
   "Imagery", "Conversational_Tone", "FOMO", "Repetition"]

/-- `TRAIT_CFG.get(name, {}).get("high_threshold", 8)` (line 196). -/
def guideHighThresh (cfgOf : String → Option TraitCfg) (name : String) : Int :=
  match cfgOf name with
  | some c => c.high_threshold
  | none => 8

/-- `shots = 3 if score >= high_thresh else 2 if score >= (high_thresh - 3) else 1`
(line 197). -/
def guideShots (cfgOf : String → Option TraitCfg) (name : String) (score : Int) : Nat :=
  if guideHighThresh cfgOf name ≤ score then 3
  else if guideHighThresh cfgOf name - 3 ≤ score then 2
  else 1

/-- `TRAIT_EXAMPLES.get(name, [])[:shots]` (line 198). -/
def guideExamples (cfgOf : String → Option TraitCfg) (name : String) (score : Int) :
    List String :=
  (TRAIT_EXAMPLES name).take (guideShots cfgOf name score)

/-- One numbered line of the trait guide (lines 198-199). -/
def guideLine (cfgOf : String → Option TraitCfg) (i : Nat) (name : String)
    (score : Int) : String :=
  natStr i ++ ". " ++ pyReplace name "_" " " ++ " (" ++ intStr score ++
    "/10) — e.g. " ++
    String.intercalate " / "
      ((guideExamples cfgOf name score).map (fun s => "“" ++ s ++ "”"))

/-- The enumerated loop body of `trait_guide` (lines 193-199),
with `i` starting at 1. -/
def traitGuideLines (cfgOf : String → Option TraitCfg) :
    Nat → List (String × Int) → List String
  | _, [] => []
  | i, (n, s) :: rest => guideLine cfgOf i n s :: traitGuideLines cfgOf (i + 1) rest

/-- `trait_guide` (lines 192-200). -/
def trait_guide (cfgOf : String → Option TraitCfg) (traits : List (String × Int)) :
    String :=
  String.intercalate "\n" (traitGuideLines cfgOf 1 traits)

/-- Every built-in slider trait has exactly three example sentences. -/
theorem trait_examples_len :
    ∀ n ∈ TRAIT_SCORE_NAMES, (TRAIT_EXAMPLES n).length = 3 := by decide

/-- C5: for every trait of the application's score mapping that is present
in the configuration, the trait guide includes 3 example sentences when the
score is at or above the trait's high threshold, 2 when it is within 3
points below that threshold, and 1 otherwise. -/
theorem trait_guide_example_counts (cfgOf : String → Option TraitCfg)
    (name : String) (score : Int) (c : TraitCfg)
    (hname : name ∈ TRAIT_SCORE_NAMES) (hc : cfgOf name = some c) :
    (guideExamples cfgOf name score).length =
      (if c.high_threshold ≤ score then 3
       else if c.high_threshold - 3 ≤ score then 2
       else 1) := by
  have hlen : (TRAIT_EXAMPLES name).length = 3 := trait_examples_len name hname
  have hthr : guideHighThresh cfgOf name = c.high_threshold := by
    simp [guideHighThresh, hc]
  rw [guideExamples, List.length_take, hlen, guideShots, hthr]
  split_ifs <;> simp [Nat.min_def]

/-- Witness for C5: a trait with high threshold 7 scored 5 gets 2 examples. -/
theorem trait_guide_example_counts_witness :
    (guideExamples
      (fun n => if n = "Urgency" then some ⟨7, 2, "H", none, "L", false⟩ else none)
      "Urgency" 5).length = 2 := by
  have h := trait_guide_example_counts
    (fun n => if n = "Urgency" then some ⟨7, 2, "H", none, "L", false⟩ else none)
    "Urgency" 5 ⟨7, 2, "H", none, "L", false⟩ (by decide) (by decide)
  rw [h]
  decide

/-- C9: the trait guide emits one numbered line for every trait in the
score mapping, including traits absent from the configuration (for which
the default high threshold 8 selects the example count), whereas the
hard-requirement compiler emits nothing for unconfigured traits. -/
theorem trait_guide_covers_unconfigured (cfgOf : String → Option TraitCfg)
    (traits : List (String × Int)) (i : Nat) (name : String) (score : Int)
    (h : cfgOf name = none) :
    (traitGuideLines cfgOf i traits).length = traits.length ∧
    guideHighThresh cfgOf name = 8 ∧
    guideShots cfgOf name score =
      (if (8 : Int) ≤ score then 3 else if (5 : Int) ≤ score then 2 else 1) ∧
    traitRuleFor cfgOf name score = [] := by
  refine ⟨?_, ?_, ?_, ?_⟩
  · induction traits generalizing i with
    | nil => rfl
    | cons p rest ih =>
      cases p
      simp [traitGuideLines, ih]
  · simp [guideHighThresh, h]
  · have h8 : guideHighThresh cfgOf name = 8 := by simp [guideHighThresh, h]
    rw [guideShots, h8]
    norm_num
  · simp [traitRuleFor, h]

/-- Witness for C9: with an empty configuration, a one-trait mapping still
yields one guide line, scored by the default threshold 8, and no hard rule. -/
theorem trait_guide_covers_unconfigured_witness :
    (traitGuideLines (fun _ => none) 1 [("Brand_New_Trait", 9)]).length = 1 ∧
    guideShots (fun _ => none) "Brand_New_Trait" 9 = 3 ∧
    traitRuleFor (fun _ => none) "Brand_New_Trait" 9 = [] := by
  have h := trait_guide_covers_unconfigured (fun _ => none)
    [("Brand_New_Trait", 9)] 1 "Brand_New_Trait" 9 rfl
  refine ⟨h.1, ?_, h.2.2.2⟩
  rw [h.2.2.1]
  decide

/-! ## 5.  Prompt builder: the Campaign Brief block (lines 95-96 and 290-291) -/

theorem str_data_append (a b : String) : (a ++ b).data = a.data ++ b.data := by
  cases a
  cases b
  rfl

theorem str_append_empty (s : String) : s ++ "" = s := by
  cases s
  show String.mk _ = _
  simp [String.append]

/-- Dropping non-whitespace characters never empties a `strip`. -/
theorem stripChars_ne_nil (l : List Char) (x : Char) (hx : x ∈ l)
    (hs : isPySpace x = false) : stripChars l ≠ [] := by
  intro h
  have hd : x ∈ l.dropWhile isPySpace := by
    have hsplit : x ∈ l.takeWhile isPySpace ++ l.dropWhile isPySpace := by
      rw [List.takeWhile_append_dropWhile]
      exact hx
    rcases List.mem_append.mp hsplit with h2 | h2
    · exact absurd (List.mem_takeWhile_imp h2) (by simp [hs])
    · exact h2
  have h1 : (l.dropWhile isPySpace).reverse.dropWhile isPySpace = [] := by
    have := congrArg List.reverse h
    simpa [stripChars] using this
  have h2 := (List.dropWhile_eq_nil_iff).mp h1 x (by simpa using hd)
  simp [hs] at h2

/-- The campaign brief record collected by `brief()` (lines 505-509);
`country` is not rendered in the Campaign Brief block so it is omitted. -/
structure Brief where
  hook : String
  details : String
  offer_price : String
  retail_price : String
  offer_term : String
  reports : String
  stocks_to_tease : String
  quotes_news : String
deriving DecidableEq

/-- `line` (lines 95-96): a bullet when the value is non-blank, else nothing. -/
def line (label value : String) : String :=
  if pyStrip value ≠ "" then "- " ++ label ++ ": " ++ value ++ "\n" else ""

/-- The composite Offer value
`f"Special {offer_price} (Retail {retail_price}), Term {offer_term}"` (line 291). -/
def offerValue (b : Brief) : String :=
  "Special " ++ b.offer_price ++ " (Retail " ++ b.retail_price ++ "), Term " ++
    b.offer_term

/-- The `#### Campaign Brief` block of `build_prompt` (line 291). -/
def campaignBriefBlock (b : Brief) : String :=
  line "Hook" b.hook ++ line "Details" b.details ++ line "Offer" (offerValue b) ++
    line "Reports" b.reports ++ line "Stocks to Tease" b.stocks_to_tease ++
    line "Quotes/News" b.quotes_news

/-- The Offer value always contains the non-blank character `S`. -/
theorem offerValue_strip_ne (b : Brief) : pyStrip (offerValue b) ≠ "" := by
  have hmem : 'S' ∈ (offerValue b).data := by
    rw [offerValue, str_data_append, str_data_append, str_data_append,
      str_data_append, str_data_append]
    exact List.mem_append.mpr (Or.inl (List.mem_append.mpr (Or.inl
      (List.mem_append.mpr (Or.inl (List.mem_append.mpr (Or.inl
      (List.mem_append.mpr (Or.inl (by decide))))))))))
  have hne := stripChars_ne_nil (offerValue b).data 'S' hmem (by decide)
  intro h
  have h2 := congrArg String.data h
  exact hne (by simpa [pyStrip] using h2)

/-- Counterexample to C6 as stated: with every field blank except hook and
details, the Campaign Brief section still contains an Offer bullet. -/
theorem campaign_brief_counterexample :
    campaignBriefBlock ⟨"h", "d", "", "", "", "", "", ""⟩ =
      "- Hook: h\n- Details: d\n- Offer: Special  (Retail ), Term \n" ∧
    pyContains "- Offer:" (campaignBriefBlock ⟨"h", "d", "", "", "", "", "", ""⟩)
      = true := by
  constructor
  · rfl
  · rfl

/-- C6 (amended): each call to `line` renders a bullet exactly when the value
passed is non-blank; but the Offer bullet is built from a composite string
that is never blank, so it always appears — with only hook and details
non-blank, the Campaign Brief section consists of exactly the Hook, Details
and Offer bullets. -/
theorem campaign_brief_bullets (b : Brief) (label v : String) :
    (pyStrip v = "" → line label v = "") ∧
    (pyStrip v ≠ "" → line label v = "- " ++ label ++ ": " ++ v ++ "\n") ∧
    line "Offer" (offerValue b) = "- Offer: " ++ offerValue b ++ "\n" ∧
    (pyStrip b.hook ≠ "" → pyStrip b.details ≠ "" →
      pyStrip b.reports = "" → pyStrip b.stocks_to_tease = "" →
      pyStrip b.quotes_news = "" →
      campaignBriefBlock b =
        line "Hook" b.hook ++ line "Details" b.details ++
          line "Offer" (offerValue b)) := by
  refine ⟨?_, ?_, ?_, ?_⟩
  · intro h
    simp [line, h]
  · intro h
    simp [line, h]
  · rw [line, if_pos (by simpa using offerValue_strip_ne b)]
    rw [show (("- " ++ "Offer" ++ ": ") : String) = "- Offer: " from by decide]
  · intro hh hd hr hs hq
    rw [campaignBriefBlock]
    rw [show line "Reports" b.reports = "" from by simp [line, hr]]
    rw [show line "Stocks to Tease" b.stocks_to_tease = "" from by simp [line, hs]]
    rw [show line "Quotes/News" b.quotes_news = "" from by simp [line, hq]]
    rw [str_append_empty, str_append_empty, str_append_empty]

/-- Witness for C6 (amended): concrete brief with pricing fields filled. -/
theorem campaign_brief_bullets_witness :
    campaignBriefBlock ⟨"hh", "dd", "$99", "$199", "1 yr", "", "", ""⟩ =
      line "Hook" "hh" ++ line "Details" "dd" ++
        line "Offer" (offerValue ⟨"hh", "dd", "$99", "$199", "1 yr", "", "", ""⟩) := by
  exact (campaign_brief_bullets ⟨"hh", "dd", "$99", "$199", "1 yr", "", "", ""⟩
    "x" "y").2.2.2 (by decide) (by decide) (by decide) (by decide) (by decide)

/-! ## 4.4.  Newline repair (lines 558-560):
`if "\\n" in raw_copy: raw_copy = raw_copy.replace("\\n", "\n")`.
`replBackslashN` is `str.replace` specialised to the two-character pattern
backslash-`n`, scanning left to right over non-overlapping occurrences. -/

def replBackslashN : List Char → List Char
  | [] => []
  | [c] => [c]
  | c1 :: c2 :: rest =>
    if c1 = '\\' ∧ c2 = 'n' then '\n' :: replBackslashN rest
    else c1 :: replBackslashN (c2 :: rest)

/-- The newline-repair pass of the Response Reconciler. -/
def repairNewlines (s : String) : String :=
  if containsSub ['\\', 'n'] s.data then ⟨replBackslashN s.data⟩ else s

/-- The head of a repaired non-empty list is the original head or a real
newline — never the bare letter `n` out of a replaced pair. -/
theorem replBackslashN_cons (c : Char) (t : List Char) :
    (replBackslashN (c :: t)).head? = some c ∨
    (replBackslashN (c :: t)).head? = some '\n' := by
  match t with
  | [] => left; rfl
  | c2 :: r =>
    rw [replBackslashN]
    by_cases h : c = '\\' ∧ c2 = 'n'
    · rw [if_pos h]; right; rfl
    · rw [if_neg h]; left; rfl

/-- After replacement, no literal backslash-`n` pair remains. -/
theorem no_bn_in_repl : ∀ n (l : List Char), l.length ≤ n →
    containsSub ['\\', 'n'] (replBackslashN l) = false := by
  intro n
  induction n with
  | zero =>
    intro l hl
    rw [List.length_eq_zero.mp (Nat.le_zero.mp hl)]
    rfl
  | succ n ih =>
    intro l hl
    match l with
    | [] => rfl
    | [c] => simp [replBackslashN, containsSub, List.isPrefixOf]
    | c1 :: c2 :: rest =>
      rw [replBackslashN]
      by_cases h : c1 = '\\' ∧ c2 = 'n'
      · rw [if_pos h]
        have hr : containsSub ['\\', 'n'] (replBackslashN rest) = false := by
          refine ih rest ?_
          simp at hl
          omega
        simp [containsSub, List.isPrefixOf, hr]
      · rw [if_neg h]
        have hr : containsSub ['\\', 'n'] (replBackslashN (c2 :: rest)) = false := by
          refine ih (c2 :: rest) ?_
          simp at hl ⊢
          omega
        rw [containsSub, hr, Bool.or_false]
        rcases not_and_or.mp h with hc1 | hc2
        · cases hrep : replBackslashN (c2 :: rest) with
          | nil => simp [List.isPrefixOf]
          | cons x xs =>
            simp [List.isPrefixOf, beq_iff_eq]
            intro hx
            exact absurd hx.symm hc1
        · cases hrep : replBackslashN (c2 :: rest) with
          | nil => simp [List.isPrefixOf]
          | cons x xs =>
            have hx : x = c2 ∨ x = '\n' := by
              have h2 := replBackslashN_cons c2 rest
              rw [hrep] at h2
              simpa using h2
            have hxn : x ≠ 'n' := by
              rcases hx with rfl | rfl
              · exact hc2
              · decide
            simp [List.isPrefixOf, beq_iff_eq]
            intro _ hx2
            exact absurd hx2.symm hxn

/-- C7: the newline-repair pass is idempotent — applying it twice yields
the same result as applying it once. -/
theorem repairNewlines_idempotent (s : String) :
    repairNewlines (repairNewlines s) = repairNewlines s := by
  by_cases h : containsSub ['\\', 'n'] s.data = true
  · have h1 : repairNewlines s = ⟨replBackslashN s.data⟩ := by
      rw [repairNewlines, if_pos h]
    rw [h1, repairNewlines, if_neg]
    rw [show String.data ⟨replBackslashN s.data⟩ = replBackslashN s.data from rfl]
    rw [no_bn_in_repl s.data.length s.data (Nat.le_refl _)]
    simp
  · have h1 : repairNewlines s = s := by
      rw [repairNewlines, if_neg h]
    rw [h1, h1]

/-! ## 6.  Unified LLM helper `run_chat` (lines 305-377).
The network is modelled by an oracle `res : Nat → Option String`: `res k` is
the provider reply at attempt `k`, `none` meaning the call raised.  The
observable side effects (attempts, `time.sleep` delays, `st.error` messages)
are collected in an event trace. -/

inductive DispatchEvent where
  | attempt (k : Nat)
  | sleep (d : Nat)
  | uiError (msg : String)
deriving DecidableEq

def isUiError : DispatchEvent → Bool
  | DispatchEvent.uiError _ => true
  | _ => false

/-- The OpenAI retry loop (lines 321-331): `for attempt in range(3)`,
`except: time.sleep(1 + attempt)`, `return ""` after the loop with no
user-visible error. -/
def openaiAttempts (res : Nat → Option String) : Nat → Nat → String × List DispatchEvent
  | 0, _ => ("", [])
  | n + 1, k =>
    match res k with
    | some r => (pyStrip r, [DispatchEvent.attempt k])
    | none =>
      let t := openaiAttempts res n (k + 1)
      (t.1, DispatchEvent.attempt k :: DispatchEvent.sleep (1 + k) :: t.2)

/-- The Gemini retry loop (lines 366-377): same shape, but after the sleep
of the final failed attempt (`attempt == 2`) an `st.error` is emitted. -/
def geminiAttempts (res : Nat → Option String) : Nat → Nat → String × List DispatchEvent
  | 0, _ => ("", [])
  | n + 1, k =>
    match res k with
    | some r => (pyStrip r, [DispatchEvent.attempt k])
    | none =>
      let t := geminiAttempts res n (k + 1)
      (t.1, DispatchEvent.attempt k :: DispatchEvent.sleep (1 + k) ::
        (if k = 2 then [DispatchEvent.uiError "Gemini API Error"] else []) ++ t.2)

/-- The two provider selections offered by the sidebar radio (line 465). -/
inductive Engine where
  | openai
  | gemini
deriving DecidableEq

/-- `run_chat` (lines 305-377): pre-flight credential check, then the
per-provider retry loop.  `keyAvailable` models `openai_client`
respectively `GOOGLE_AVAILABLE`. -/
def run_chat (engine : Engine) (keyAvailable : Bool)
    (res : Nat → Option String) : String × List DispatchEvent :=
  match engine with
  | Engine.openai =>
    if keyAvailable = false then ("", [DispatchEvent.uiError "OpenAI API Key missing."])
    else openaiAttempts res 3 0
  | Engine.gemini =>
    if keyAvailable = false then
      ("", [DispatchEvent.uiError "Google API Key missing in secrets.toml."])
    else geminiAttempts res 3 0

/-- Counterexample to C4 as stated: when all three OpenAI attempts fail, the
delay before attempt 1 is 1 time unit (not `1 + 1 = 2`), and no user-visible
error is surfaced on exhaustion — the adapter returns the empty string
silently. -/
theorem run_chat_openai_exhaustion_counterexample :
    run_chat Engine.openai true (fun _ => none) =
      ("", [DispatchEvent.attempt 0, DispatchEvent.sleep 1, DispatchEvent.attempt 1,
            DispatchEvent.sleep 2, DispatchEvent.attempt 2, DispatchEvent.sleep 3]) ∧
    (run_chat Engine.openai true (fun _ => none)).2.filter isUiError = [] ∧
    (run_chat Engine.openai true (fun _ => none)).2[1]? ≠
      some (DispatchEvent.sleep 2) := by
  refine ⟨rfl, rfl, ?_⟩
  decide

/-- C4 (amended): up to 3 attempts per invocation; after each failed attempt
`k` (0-indexed) the adapter sleeps `1 + k` time units — so the delays run
1, 2, 3, with the last sleep occurring even after the final failure; on
exhaustion both adapters return an empty result rather than raising, but
only the Gemini adapter surfaces a user-visible error — the OpenAI adapter
stays silent. -/
theorem run_chat_retry_spec (res : Nat → Option String) :
    (res 0 = none → res 1 = none → res 2 = none →
      run_chat Engine.openai true res =
        ("", [DispatchEvent.attempt 0, DispatchEvent.sleep 1, DispatchEvent.attempt 1,
              DispatchEvent.sleep 2, DispatchEvent.attempt 2, DispatchEvent.sleep 3]) ∧
      run_chat Engine.gemini true res =
        ("", [DispatchEvent.attempt 0, DispatchEvent.sleep 1, DispatchEvent.attempt 1,
              DispatchEvent.sleep 2, DispatchEvent.attempt 2, DispatchEvent.sleep 3,
              DispatchEvent.uiError "Gemini API Error"])) ∧
    (∀ r, res 0 = some r →
      run_chat Engine.openai true res = (pyStrip r, [DispatchEvent.attempt 0]) ∧
      run_chat Engine.gemini true res = (pyStrip r, [DispatchEvent.attempt 0])) ∧
    (∀ r, res 0 = none → res 1 = some r →
      run_chat Engine.openai true res =
        (pyStrip r, [DispatchEvent.attempt 0, DispatchEvent.sleep 1,
                     DispatchEvent.attempt 1]) ∧
      run_chat Engine.gemini true res =
        (pyStrip r, [DispatchEvent.attempt 0, DispatchEvent.sleep 1,
                     DispatchEvent.attempt 1])) ∧
    (∀ r, res 0 = none → res 1 = none → res 2 = some r →
      run_chat Engine.openai true res =
        (pyStrip r, [DispatchEvent.attempt 0, DispatchEvent.sleep 1,
                     DispatchEvent.attempt 1, DispatchEvent.sleep 2,
                     DispatchEvent.attempt 2]) ∧
      run_chat Engine.gemini true res =
        (pyStrip r, [DispatchEvent.attempt 0, DispatchEvent.sleep 1,
                     DispatchEvent.attempt 1, DispatchEvent.sleep 2,
                     DispatchEvent.attempt 2])) := by
  refine ⟨?_, ?_, ?_, ?_⟩
  · intro h0 h1 h2
    constructor
    · simp [run_chat, openaiAttempts, h0, h1, h2]
    · simp [run_chat, geminiAttempts, h0, h1, h2]
  · intro r h0
    constructor
    · simp [run_chat, openaiAttempts, h0]
    · simp [run_chat, geminiAttempts, h0]
  · intro r h0 h1
    constructor
    · simp [run_chat, openaiAttempts, h0, h1]
    · simp [run_chat, geminiAttempts, h0, h1]
  · intro r h0 h1 h2
    constructor
    · simp [run_chat, openaiAttempts, h0, h1, h2]
    · simp [run_chat, geminiAttempts, h0, h1, h2]

/-- Witness for C4 (amended): success at the second attempt, after one
1-unit delay, returning the stripped reply. -/
theorem run_chat_retry_spec_witness :
    run_chat Engine.openai true (fun k => if k = 0 then none else some " hi ") =
      (pyStrip " hi ", [DispatchEvent.attempt 0, DispatchEvent.sleep 1,
                        DispatchEvent.attempt 1]) := by
  exact ((run_chat_retry_spec
    (fun k => if k = 0 then none else some " hi ")).2.2.1 " hi " rfl rfl).1

/-! ## 7A.  AI pair-editor `self_qa` (lines 382-407).
The two possible model calls are recorded as `QaCall` values; the oracle
replies (`critiqueReply`, `reviseReply`) stand for what `run_chat` would
return if the corresponding call were made.  The Python gate
`word_count < (min_len * 0.5)` is exact halving, rendered as
`2 * word_count < min_len`. -/

/-- `LENGTH_RULES` (lines 37-43) as the partial map `LENGTH_RULES.get`. -/
def LENGTH_RULES (choice : String) : Option (Nat × Option Nat) :=
  if choice = "📏 Short (100–200 words)" then some (100, some 220)
  else if choice = "📐 Medium (200–500 words)" then some (200, some 550)
  else if choice = "📖 Long (500–1500 words)" then some (500, some 1600)
  else if choice = "📚 Extra Long (1500–3000 words)" then some (1500, some 3200)
  else if choice = "📜 Scrolling Monster (3000+ words)" then some (3000, none)
  else none

/-- `AUTO_QA` (line 31). -/
def AUTO_QA : Bool := true

/-- Python `s.split()`: words are maximal runs of non-whitespace. -/
def wordsAux : List Char → List Char → List (List Char)
  | [], acc => if acc = [] then [] else [acc.reverse]
  | c :: rest, acc =>
    if isPySpace c then
      if acc = [] then wordsAux rest [] else acc.reverse :: wordsAux rest []
    else wordsAux rest (c :: acc)

/-- `len(draft.split())` (line 386). -/
def wordCount (s : String) : Nat := (wordsAux s.data []).length

/-- The locally synthesized critique (line 388). -/
def synthCrit (wc minLen : Nat) : String :=
  "- Draft is only " ++ natStr wc ++ " words (Target: " ++ natStr minLen ++
    "). Please expand significantly."

/-- A model call made by `self_qa`: the critique request, or the revise
request carrying the critique text as the fix list. -/
inductive QaCall where
  | critique
  | revise (fixes : String)
deriving DecidableEq

/-- `self_qa` (lines 382-407), returning the final draft together with the
list of model calls made. -/
def self_qa (lengthChoice draft critiqueReply reviseReply : String) :
    String × List QaCall :=
  if AUTO_QA = false then (draft, [])
  else
    let minLen := ((LENGTH_RULES lengthChoice).getD (0, none)).1
    let wc := wordCount draft
    let critLocal :=
      if minLen ≠ 0 ∧ 2 * wc < minLen then synthCrit wc minLen else ""
    let critCalls :=
      if critLocal = "" then (critiqueReply, [QaCall.critique])
      else (critLocal, ([] : List QaCall))
    if pyContains "PASS" (pyUpper critCalls.1) then (draft, critCalls.2)
    else
      (if reviseReply ≠ "" then pyStrip reviseReply else draft,
        critCalls.2 ++ [QaCall.revise critCalls.1])

/-! Auxiliary facts: the synthesized critique never contains the token
`PASS` (uppercased), because its letters never form an adjacent `SS` pair
and its variable parts are decimal digits. -/

def DIGITS : List Char := ['0', '1', '2', '3', '4', '5', '6', '7', '8', '9']

theorem digitChar_mem_DIGITS : ∀ m, m < 10 → Nat.digitChar m ∈ DIGITS := by decide

theorem natToCharsAux_digits : ∀ fuel n acc, (∀ c ∈ acc, c ∈ DIGITS) →
    ∀ c ∈ natToCharsAux fuel n acc, c ∈ DIGITS := by
  intro fuel
  induction fuel with
  | zero =>
    intro n acc hacc c hc
    exact hacc c hc
  | succ f ih =>
    intro n acc hacc c hc
    rw [natToCharsAux] at hc
    by_cases h : n < 10
    · rw [if_pos h] at hc
      rcases List.mem_cons.mp hc with rfl | hmem
      · exact digitChar_mem_DIGITS n h
      · exact hacc c hmem
    · rw [if_neg h] at hc
      refine ih (n / 10) (Nat.digitChar (n % 10) :: acc) ?_ c hc
      intro c2 hc2
      rcases List.mem_cons.mp hc2 with rfl | hmem
      · exact digitChar_mem_DIGITS (n % 10) (Nat.mod_lt n (by omega))
      · exact hacc c2 hmem

theorem natStr_digits (n : Nat) : ∀ c ∈ (natStr n).data, c ∈ DIGITS := by
  intro c hc
  exact natToCharsAux_digits (n + 1) n [] (by intro c2 hc2; simp at hc2) c hc

theorem toUpper_digit : ∀ c ∈ DIGITS, Char.toUpper c = c := by decide

theorem digit_ne_S : ∀ c ∈ DIGITS, c ≠ 'S' := by decide

theorem natStr_map_toUpper (n : Nat) :
    (natStr n).data.map Char.toUpper = (natStr n).data := by
  rw [show (natStr n).data.map Char.toUpper = (natStr n).data.map id from
    List.map_congr_left (fun c hc => toUpper_digit c (natStr_digits n c hc))]
  exact List.map_id _

theorem band_true {a b : Bool} (h : (a && b) = true) : a = true ∧ b = true := by
  simp at h
  exact h

/-- No adjacent pair of `S` characters anywhere in the list. -/
def noSS : List Char → Bool
  | x :: y :: rest => !(x == 'S' && y == 'S') && noSS (y :: rest)
  | _ => true

theorem noSS_tail {x : Char} {l : List Char} (h : noSS (x :: l) = true) :
    noSS l = true := by
  cases l with
  | nil => rfl
  | cons y r =>
    have h2 : (!(x == 'S' && y == 'S') && noSS (y :: r)) = true := h
    exact (band_true h2).2

theorem no_pass_of_noSS : ∀ l : List Char, noSS l = true →
    containsSub ['P', 'A', 'S', 'S'] l = false := by
  intro l
  induction l with
  | nil => intro _; rfl
  | cons c rest ih =>
    intro h
    rw [containsSub, ih (noSS_tail h), Bool.or_false]
    cases rest with
    | nil => simp [List.isPrefixOf]
    | cons y r2 =>
      cases r2 with
      | nil => simp [List.isPrefixOf]
      | cons z r3 =>
        cases r3 with
        | nil => simp [List.isPrefixOf]
        | cons w r4 =>
          have h1 := noSS_tail h
          have h2 := noSS_tail h1
          have h3 : (!(z == 'S' && w == 'S') && noSS (w :: r4)) = true := h2
          have h4 := (band_true h3).1
          have h5 : ¬(z = 'S' ∧ w = 'S') := by
            intro hzw
            rw [hzw.1, hzw.2] at h4
            simp at h4
          apply Bool.eq_false_iff.mpr
          intro hT
          simp only [List.isPrefixOf, Bool.and_eq_true, beq_iff_eq] at hT
          exact h5 ⟨hT.2.2.1.symm, hT.2.2.2.1.symm⟩

theorem noSS_append : ∀ (a b : List Char), noSS a = true → noSS b = true →
    (∀ x y, a.getLast? = some x → b.head? = some y → ¬(x = 'S' ∧ y = 'S')) →
    noSS (a ++ b) = true := by
  intro a
  induction a with
  | nil =>
    intro b _ hb _
    simpa using hb
  | cons c rest ih =>
    intro b ha hb hbd
    cases rest with
    | nil =>
      cases b with
      | nil => rfl
      | cons y r =>
        have hpair : ¬(c = 'S' ∧ y = 'S') := hbd c y rfl rfl
        have hb1 : (!(c == 'S' && y == 'S')) = true := by
          by_cases hc : c = 'S'
          · by_cases hy : y = 'S'
            · exact absurd ⟨hc, hy⟩ hpair
            · simp [hc, hy]
          · simp [hc]
        show (!(c == 'S' && y == 'S') && noSS (y :: r)) = true
        rw [hb1, hb]
        rfl
    | cons d rest2 =>
      have ha2 : noSS (d :: rest2) = true := noSS_tail ha
      have hpair : (!(c == 'S' && d == 'S')) = true := by
        have h3 : (!(c == 'S' && d == 'S') && noSS (d :: rest2)) = true := ha
        exact (band_true h3).1
      have hrec : noSS ((d :: rest2) ++ b) = true := by
        refine ih b ha2 hb ?_
        intro x y hx hy
        refine hbd x y ?_ hy
        rw [List.getLast?_cons_cons]
        exact hx
      have hrec2 : noSS (d :: (rest2 ++ b)) = true := hrec
      show (!(c == 'S' && d == 'S') && noSS (d :: (rest2 ++ b))) = true
      rw [hpair, hrec2]
      rfl

theorem noSS_of_no_S : ∀ l : List Char, (∀ c ∈ l, c ≠ 'S') → noSS l = true := by
  intro l
  induction l with
  | nil => intro _; rfl
  | cons x rest ih =>
    intro h
    cases rest with
    | nil => rfl
    | cons y r =>
      have hx : x ≠ 'S' := h x (List.mem_cons_self x _)
      have hrest : noSS (y :: r) = true :=
        ih (fun c hc => h c (List.mem_cons_of_mem x hc))
      show (!(x == 'S' && y == 'S') && noSS (y :: r)) = true
      simp [hx, hrest]

theorem synthCrit_data (wc m : Nat) : (synthCrit wc m).data =
    "- Draft is only ".data ++ ((natStr wc).data ++ (" words (Target: ".data ++
      ((natStr m).data ++ "). Please expand significantly.".data))) := by
  rw [synthCrit, str_data_append, str_data_append, str_data_append, str_data_append]
  simp [List.append_assoc]

theorem noSS_synth (wc m : Nat) : noSS ((pyUpper (synthCrit wc m)).data) = true := by
  rw [show (pyUpper (synthCrit wc m)).data =
      (synthCrit wc m).data.map Char.toUpper from rfl, synthCrit_data]
  simp only [List.map_append]
  rw [natStr_map_toUpper, natStr_map_toUpper]
  rw [show "- Draft is only ".data.map Char.toUpper = "- DRAFT IS ONLY ".data
    from by decide]
  rw [show " words (Target: ".data.map Char.toUpper = " WORDS (TARGET: ".data
    from by decide]
  rw [show "). Please expand significantly.".data.map Char.toUpper =
      "). PLEASE EXPAND SIGNIFICANTLY.".data from by decide]
  refine noSS_append _ _ (by decide) ?_ ?_
  · refine noSS_append _ _
      (noSS_of_no_S _ (fun c hc => digit_ne_S c (natStr_digits wc c hc))) ?_ ?_
    · refine noSS_append _ _ (by decide) ?_ ?_
      · refine noSS_append _ _
          (noSS_of_no_S _ (fun c hc => digit_ne_S c (natStr_digits m c hc)))
          (by decide) ?_
        intro x y hx hy hxy
        exact digit_ne_S x (natStr_digits m x (List.mem_of_mem_getLast? hx)) hxy.1
      · intro x y hx hy hxy
        rw [show (" WORDS (TARGET: ".data).getLast? = some ' ' from by decide] at hx
        cases hx
        exact absurd hxy.1 (by decide)
    · intro x y hx hy hxy
      exact digit_ne_S x (natStr_digits wc x (List.mem_of_mem_getLast? hx)) hxy.1
  · intro x y hx hy hxy
    rw [show ("- DRAFT IS ONLY ".data).getLast? = some ' ' from by decide] at hx
    cases hx
    exact absurd hxy.1 (by decide)

/-- The uppercased synthesized critique never contains `PASS`. -/
theorem noPass_synth (wc m : Nat) :
    pyContains "PASS" (pyUpper (synthCrit wc m)) = false := by
  rw [pyContains, show "PASS".data = ['P', 'A', 'S', 'S'] from by decide]
  exact no_pass_of_noSS _ (noSS_synth wc m)

/-- The synthesized critique is never the empty (falsy) string. -/
theorem synthCrit_ne_empty (wc m : Nat) : synthCrit wc m ≠ "" := by
  intro h
  have h2 := congrArg String.data h
  rw [synthCrit_data] at h2
  simp [List.append_eq_nil] at h2

/-- C3: one invocation of `self_qa` makes at most 2 model calls, and when a
minimum word count is configured for the current length bucket and the
draft's word count is below half that minimum, the critique call is skipped
and only the revise call is made, carrying the locally synthesized
critique. -/
theorem self_qa_call_bound (lengthChoice draft critiqueReply reviseReply : String) :
    (self_qa lengthChoice draft critiqueReply reviseReply).2.length ≤ 2 ∧
    (∀ mn mx, LENGTH_RULES lengthChoice = some (mn, mx) → mn ≠ 0 →
      2 * wordCount draft < mn →
      (self_qa lengthChoice draft critiqueReply reviseReply).2 =
        [QaCall.revise (synthCrit (wordCount draft) mn)]) := by
  constructor
  · rw [self_qa]
    simp only [AUTO_QA]
    split_ifs <;> simp
  · intro mn mx h hne hlt
    rw [self_qa]
    simp [AUTO_QA, h, hne, hlt, synthCrit_ne_empty, noPass_synth]

/-- Witness for C3: a 2-word draft against the Short bucket fires the local
length gate, yielding exactly one revise call with the synthesized critique. -/
theorem self_qa_call_bound_witness :
    (self_qa "📏 Short (100–200 words)" "too short" "PASS" "longer").2 =
      [QaCall.revise (synthCrit 2 100)] ∧
    (self_qa "📏 Short (100–200 words)" "too short" "PASS" "longer").2.length ≤ 2 := by
  have h := self_qa_call_bound "📏 Short (100–200 words)" "too short" "PASS" "longer"
  refine ⟨?_, h.1⟩
  have h2 := h.2 100 (some 220) rfl (by decide) (by decide)
  rw [h2]
  decide

/-! ## Model of `json.loads` and the response reconciliation in `generate`
(lines 545-560) and `generate_variants` (lines 412-429).
The JSON value model keeps numeric literals as their lexemes: the program
under study only ever subscripts parsed objects and calls `.strip()` on
string values, so numeric magnitudes are irrelevant.  `\uXXXX` escapes are
decoded without surrogate-pair combination. -/

inductive Json where
  | jnull
  | jbool (b : Bool)
  | jnum (lit : String)
  | jstr (s : String)
  | jarr (elems : List Json)
  | jobj (members : List (String × Json))

/-- The brace characters, kept out of string literals. -/
def lbrace : Char := Char.ofNat 123

def rbrace : Char := Char.ofNat 125

/-- JSON inter-token whitespace. -/
def jsonWs (c : Char) : Bool := c = ' ' || c = '\t' || c = '\n' || c = '\r'

def skipWs (l : List Char) : List Char := l.dropWhile jsonWs

def isDigitChar (c : Char) : Bool := '0' ≤ c && c ≤ '9'

def hexVal (c : Char) : Option Nat :=
  if '0' ≤ c ∧ c ≤ '9' then some (c.toNat - 48)
  else if 'a' ≤ c ∧ c ≤ 'f' then some (c.toNat - 87)
  else if 'A' ≤ c ∧ c ≤ 'F' then some (c.toNat - 55)
  else none

def escChar (e : Char) : Option Char :=
  if e = '"' then some '"'
  else if e = '\\' then some '\\'
  else if e = '/' then some '/'
  else if e = 'b' then some '\x08'
  else if e = 'f' then some '\x0c'
  else if e = 'n' then some '\n'
  else if e = 'r' then some '\r'
  else if e = 't' then some '\t'
  else none

/-- JSON string body after the opening quote: decoded characters and the
remainder after the closing quote.  Strict mode: raw control characters
are rejected. -/
def parseJStringAux : Nat → List Char → Option (List Char × List Char)
  | 0, _ => none
  | _, [] => none
  | fuel + 1, c :: rest =>
    if c = '"' then some ([], rest)
    else if c = '\\' then
      match rest with
      | [] => none
      | e :: rest2 =>
        if e = 'u' then
          match rest2 with
          | h1 :: h2 :: h3 :: h4 :: rest3 =>
            match hexVal h1, hexVal h2, hexVal h3, hexVal h4 with
            | some a, some b, some c2, some d =>
              match parseJStringAux fuel rest3 with
              | some (cs, rem) =>
                some (Char.ofNat (((a * 16 + b) * 16 + c2) * 16 + d) :: cs, rem)
              | none => none
            | _, _, _, _ => none
          | _ => none
        else
          match escChar e with
          | some ch =>
            match parseJStringAux fuel rest2 with
            | some (cs, rem) => some (ch :: cs, rem)
            | none => none
          | none => none
    else if c.toNat < 32 then none
    else
      match parseJStringAux fuel rest with
      | some (cs, rem) => some (c :: cs, rem)
      | none => none

/-- JSON number lexeme: `-? (0 | [1-9][0-9]*) frac? exp?`. -/
def parseNumber (l : List Char) : Option (List Char × List Char) :=
  let sl : List Char × List Char :=
    match l with
    | '-' :: r => (['-'], r)
    | _ => ([], l)
  match sl.2 with
  | [] => none
  | c :: _ =>
    if ¬ (isDigitChar c = true) then none
    else
      let ip : List Char × List Char :=
        if c = '0' then (['0'], sl.2.tail)
        else (sl.2.takeWhile isDigitChar, sl.2.dropWhile isDigitChar)
      let fr : Option (List Char × List Char) :=
        match ip.2 with
        | '.' :: r2 =>
          if r2.takeWhile isDigitChar = [] then none
          else some ('.' :: r2.takeWhile isDigitChar, r2.dropWhile isDigitChar)
        | _ => some ([], ip.2)
      match fr with
      | none => none
      | some (fracPart, r2) =>
        let ex : Option (List Char × List Char) :=
          match r2 with
          | e :: r3 =>
            if e = 'e' ∨ e = 'E' then
              let sr : List Char × List Char :=
                match r3 with
                | '+' :: r5 => ([e, '+'], r5)
                | '-' :: r5 => ([e, '-'], r5)
                | _ => ([e], r3)
              if sr.2.takeWhile isDigitChar = [] then none
              else some (sr.1 ++ sr.2.takeWhile isDigitChar,
                         sr.2.dropWhile isDigitChar)
            else some ([], r2)
          | [] => some ([], r2)
        match ex with
        | none => none
        | some (expPart, r5) =>
          some (sl.1 ++ ip.1 ++ fracPart ++ expPart, r5)

mutual

def parseJsonVal : Nat → List Char → Option (Json × List Char)
  | 0, _ => none
  | fuel + 1, l =>
    match skipWs l with
    | [] => none
    | c :: rest =>
      if c = '"' then
        match parseJStringAux (rest.length + 1) rest with
        | some (cs, rem) => some (Json.jstr ⟨cs⟩, rem)
        | none => none
      else if c = lbrace then parseJsonMembers fuel rest
      else if c = '[' then parseJsonElems fuel rest
      else if ['t', 'r', 'u', 'e'].isPrefixOf (c :: rest) then
        some (Json.jbool true, (c :: rest).drop 4)
      else if ['f', 'a', 'l', 's', 'e'].isPrefixOf (c :: rest) then
        some (Json.jbool false, (c :: rest).drop 5)
      else if ['n', 'u', 'l', 'l'].isPrefixOf (c :: rest) then
        some (Json.jnull, (c :: rest).drop 4)
      else
        match parseNumber (c :: rest) with
        | some (lit, rem) => some (Json.jnum ⟨lit⟩, rem)
        | none => none

def parseJsonElems : Nat → List Char → Option (Json × List Char)
  | 0, _ => none
  | fuel + 1, l =>
    match skipWs l with
    | c :: _ =>
      if c = ']' then some (Json.jarr [], (skipWs l).tail)
      else
        match parseJsonVal fuel l with
        | some (v, rem) =>
          match parseJsonElemsRest fuel rem with
          | some (vs, rem2) => some (Json.jarr (v :: vs), rem2)
          | none => none
        | none => none
    | [] => none

def parseJsonElemsRest : Nat → List Char → Option (List Json × List Char)
  | 0, _ => none
  | fuel + 1, l =>
    match skipWs l with
    | c :: rest =>
      if c = ']' then some ([], rest)
      else if c = ',' then
        match parseJsonVal fuel rest with
        | some (v, rem) =>
          match parseJsonElemsRest fuel rem with
          | some (vs, rem2) => some (v :: vs, rem2)
          | none => none
        | none => none
      else none
    | [] => none

def parseJsonMembers : Nat → List Char → Option (Json × List Char)
  | 0, _ => none
  | fuel + 1, l =>
    match skipWs l with
    | c :: rest =>
      if c = rbrace then some (Json.jobj [], rest)
      else if c = '"' then
        match parseJStringAux (rest.length + 1) rest with
        | some (kchars, rem) =>
          match skipWs rem with
          | ':' :: rem2 =>
            match parseJsonVal fuel rem2 with
            | some (v, rem3) =>
              match parseJsonMembersRest fuel rem3 with
              | some (ms, rem4) => some (Json.jobj ((⟨kchars⟩, v) :: ms), rem4)
              | none => none
            | none => none
          | _ => none
        | none => none
      else none
    | [] => none

def parseJsonMembersRest : Nat → List Char → Option (List (String × Json) × List Char)
  | 0, _ => none
  | fuel + 1, l =>
    match skipWs l with
    | c :: rest =>
      if c = rbrace then some ([], rest)
      else if c = ',' then
        match skipWs rest with
        | '"' :: rest2 =>
          match parseJStringAux (rest2.length + 1) rest2 with
          | some (kchars, rem) =>
            match skipWs rem with
            | ':' :: rem2 =>
              match parseJsonVal fuel rem2 with
              | some (v, rem3) =>
                match parseJsonMembersRest fuel rem3 with
                | some (ms, rem4) => some ((⟨kchars⟩, v) :: ms, rem4)
                | none => none
              | none => none
            | _ => none
          | none => none
        | _ => none
      else none
    | [] => none

end

/-- `json.loads`: parse one value, require only whitespace afterwards.
The fuel bound suffices because every two fuel steps consume at least one
character. -/
def pyJsonLoads (s : String) : Option Json :=
  match parseJsonVal (2 * s.data.length + 2) s.data with
  | some (v, rem) => if skipWs rem = [] then some v else none
  | none => none

/-- Outcome of the reconciliation code path in `generate`: the early
`return None` on a falsy reply, a normal `{plan, copy}` result, or a raised
Python exception. -/
inductive RecOutcome where
  | noneEarly
  | ok (plan copy : String)
  | raised (exc : String)
deriving DecidableEq

def FENCE_JSON : String := "```json"

def FENCE : String := "```"

/-- `raw.replace("```json", "").replace("```", "").strip()`
(line 548 in `generate`, line 428 in `generate_variants`). -/
def cleanFences (s : String) : String :=
  pyStrip (pyReplace (pyReplace s FENCE_JSON "") FENCE "")

/-- Python dict built from JSON object members (later duplicate keys win),
then subscripted: `d[k]`. -/
def lookupLast (k : String) (ms : List (String × Json)) : Option Json :=
  ms.foldl (fun acc p => if p.1 = k then some p.2 else acc) none

/-- The response reconciliation of `generate` (lines 545-560): early return
on an empty reply; fence cleanup; `json.loads` guarded only against
`JSONDecodeError` (fallback `{"plan": "", "copy": clean_json}`); then
`data["plan"].strip()` and `data["copy"].strip()` — which raise `KeyError`
on a missing key, `AttributeError`/`TypeError` on non-string or non-object
values — and finally the newline repair on the copy. -/
def reconcile (raw : String) : RecOutcome :=
  if raw = "" then RecOutcome.noneEarly
  else
    match pyJsonLoads (cleanFences raw) with
    | none =>
      RecOutcome.ok (pyStrip "") (repairNewlines (pyStrip (cleanFences raw)))
    | some (Json.jobj ms) =>
      match lookupLast "plan" ms with
      | none => RecOutcome.raised "KeyError: plan"
      | some (Json.jstr p) =>
        match lookupLast "copy" ms with
        | none => RecOutcome.raised "KeyError: copy"
        | some (Json.jstr c) =>
          RecOutcome.ok (pyStrip p) (repairNewlines (pyStrip c))
        | some _ => RecOutcome.raised "AttributeError: strip"
      | some _ => RecOutcome.raised "AttributeError: strip"
    | some _ => RecOutcome.raised "TypeError: subscript"

/-- Counterexample to C1 as stated: (a) a reply that is valid JSON but lacks
the `plan` key makes the reconciliation raise `KeyError` instead of
defaulting `plan` to empty; (b) on parse failure the copy is the cleaned
text, not the entire raw text. -/
theorem reconcile_counterexample :
    reconcile "\x7b\"copy\": \"hi\"\x7d" = RecOutcome.raised "KeyError: plan" ∧
    reconcile "```x```" = RecOutcome.ok "" "x" ∧
    cleanFences "```x```" ≠ "```x```" := by
  refine ⟨rfl, rfl, ?_⟩
  decide

/-- C1 (amended): the reconciliation never raises when the cleaned text is
not valid JSON — it falls back to `plan` empty and the cleaned
(fence-stripped, trimmed, newline-repaired) text as copy, not the raw text;
when the cleaned text parses as an object with string `plan` and `copy`
values those are extracted; but a parsed object lacking `plan` raises
`KeyError` rather than defaulting to empty. -/
theorem reconcile_spec (raw : String) (hraw : raw ≠ "") :
    (pyJsonLoads (cleanFences raw) = none →
      reconcile raw =
        RecOutcome.ok "" (repairNewlines (pyStrip (cleanFences raw)))) ∧
    (∀ ms, pyJsonLoads (cleanFences raw) = some (Json.jobj ms) →
      lookupLast "plan" ms = none →
      reconcile raw = RecOutcome.raised "KeyError: plan") ∧
    (∀ ms p c, pyJsonLoads (cleanFences raw) = some (Json.jobj ms) →
      lookupLast "plan" ms = some (Json.jstr p) →
      lookupLast "copy" ms = some (Json.jstr c) →
      reconcile raw = RecOutcome.ok (pyStrip p) (repairNewlines (pyStrip c))) := by
  refine ⟨?_, ?_, ?_⟩
  · intro h
    simp [reconcile, hraw, h]
    rfl
  · intro ms h hp
    simp [reconcile, hraw, h, hp]
  · intro ms p c h hp hc
    simp [reconcile, hraw, h, hp, hc]

/-- Witness for C1 (amended): a fence-wrapped non-JSON reply degrades to
the cleaned text as copy without raising. -/
theorem reconcile_spec_witness :
    reconcile "```not json```" =
      RecOutcome.ok "" (repairNewlines (pyStrip (cleanFences "```not json```"))) := by
  exact (reconcile_spec "```not json```" (by decide)).1 rfl

/-- `generate_variants` (lines 412-429): fence cleanup then a bare
`json.loads` — a parse failure raises `json.decoder.JSONDecodeError`. -/
def generate_variants (replyText : String) : Except String Json :=
  match pyJsonLoads (cleanFences replyText) with
  | some j => Except.ok j
  | none => Except.error "json.decoder.JSONDecodeError"

/-- The `gen_variants_btn` click handler (lines 595-597):
`st.session_state.variants = generate_variants(...)` with no `try`/`except`,
so an error from `generate_variants` propagates into the session loop. -/
def genVariantsClickHandler (replyText : String) : Except String (Option Json) :=
  match generate_variants replyText with
  | Except.ok j => Except.ok (some j)
  | Except.error e => Except.error e

/-- C8 (code bug): on the empty reply left by retry exhaustion — or any
reply whose cleaned text is not valid JSON — `generate_variants` raises a
parse error that the click handler does not catch, so the exception reaches
the interactive session loop instead of being converted into a visible
non-fatal message or fallback result. -/
theorem generate_variants_uncaught :
    genVariantsClickHandler "" = Except.error "json.decoder.JSONDecodeError" ∧
    generate_variants "" = Except.error "json.decoder.JSONDecodeError" := by
  exact ⟨rfl, rfl⟩

/-! ## C10: the fence cleanup is a global `str.replace`, not a
leading/trailing trim. -/

theorem bor_false {a b : Bool} (h : (a || b) = false) : a = false ∧ b = false := by
  constructor
  · cases a
    · rfl
    · simp at h
  · cases b
    · rfl
    · simp at h

theorem replaceAllAux_no_occ (pat rep : List Char) :
    ∀ fuel l, containsSub pat l = false → replaceAllAux pat rep fuel l = l := by
  intro fuel
  induction fuel with
  | zero => intro l _; rfl
  | succ f ih =>
    intro l h
    cases l with
    | nil => rfl
    | cons c rest =>
      rw [containsSub] at h
      have h1 := (bor_false h).1
      have h2 := (bor_false h).2
      have hcond : ¬(pat ≠ [] ∧ pat.isPrefixOf (c :: rest) = true) := by
        intro hcd
        rw [h1] at hcd
        exact Bool.false_ne_true hcd.2
      simp only [replaceAllAux]
      rw [if_neg hcond, ih rest h2]

theorem no_occ_of_no_bt (t : List Char) :
    ∀ l, (∀ c ∈ l, c ≠ '`') → containsSub ('`' :: t) l = false := by
  intro l
  induction l with
  | nil => intro _; rfl
  | cons c rest ih =>
    intro h
    have hc : c ≠ '`' := h c (List.mem_cons_self c _)
    rw [containsSub, ih (fun c2 hc2 => h c2 (List.mem_cons_of_mem c hc2)),
      Bool.or_false]
    show (('`' == c) && t.isPrefixOf rest) = false
    have hb : ('`' == c) = false := by
      simp [beq_iff_eq]
      exact fun he => hc he.symm
    rw [hb, Bool.false_and]

theorem replaceAllAux_skip_clean (t rep : List Char) :
    ∀ (x : List Char) (f : Nat) (rest : List Char), (∀ c ∈ x, c ≠ '`') →
      replaceAllAux ('`' :: t) rep (x.length + f) (x ++ rest) =
        x ++ replaceAllAux ('`' :: t) rep f rest := by
  intro x
  induction x with
  | nil =>
    intro f rest _
    simp
  | cons c x2 ih =>
    intro f rest h
    have hc : c ≠ '`' := h c (List.mem_cons_self c _)
    have hlen : (c :: x2).length + f = (x2.length + f) + 1 := by
      simp
      omega
    rw [hlen]
    show replaceAllAux ('`' :: t) rep ((x2.length + f) + 1) (c :: (x2 ++ rest)) =
      c :: (x2 ++ replaceAllAux ('`' :: t) rep f rest)
    have hcond : ¬(('`' :: t) ≠ [] ∧ ('`' :: t).isPrefixOf (c :: (x2 ++ rest)) = true) := by
      intro hcd
      have h2 : (('`' == c) && t.isPrefixOf (x2 ++ rest)) = true := hcd.2
      exact hc (beq_iff_eq.mp (band_true h2).1).symm
    simp only [replaceAllAux]
    rw [if_neg hcond, ih f rest (fun c2 hc2 => h c2 (List.mem_cons_of_mem c hc2))]

theorem isPrefixOf_self_append : ∀ (l y : List Char), l.isPrefixOf (l ++ y) = true := by
  intro l
  induction l with
  | nil => intro y; simp [List.isPrefixOf]
  | cons a t ih =>
    intro y
    show ((a == a) && t.isPrefixOf (t ++ y)) = true
    rw [ih y]
    simp

theorem replaceAllAux_at_pat (pat rep : List Char) (hne : pat ≠ [])
    (f : Nat) (y : List Char) :
    replaceAllAux pat rep (f + 1) (pat ++ y) = rep ++ replaceAllAux pat rep f y := by
  cases pat with
  | nil => exact absurd rfl hne
  | cons p pt =>
    show replaceAllAux (p :: pt) rep (f + 1) (p :: (pt ++ y)) = _
    simp only [replaceAllAux]
    rw [if_pos]
    · have hdrop : (p :: (pt ++ y)).drop (p :: pt).length = y := by
        rw [show (p :: (pt ++ y)) = (p :: pt) ++ y from rfl, List.drop_left]
      rw [hdrop]
    · refine ⟨by simp, ?_⟩
      rw [show (p :: (pt ++ y)) = (p :: pt) ++ y from rfl]
      exact isPrefixOf_self_append (p :: pt) y

/-- No occurrence of the 7-character fence pattern around a bare 3-backtick
fence flanked by backtick-free text whose suffix does not begin with `json`. -/
theorem no_occ_fj_around_f3 :
    ∀ (x y : List Char), (∀ c ∈ x, c ≠ '`') → (∀ c ∈ y, c ≠ '`') →
      ['j', 's', 'o', 'n'].isPrefixOf y = false →
      containsSub ('`' :: '`' :: '`' :: 'j' :: 's' :: 'o' :: 'n' :: [])
        ((x ++ ['`', '`', '`']) ++ y) = false := by
  intro x
  induction x with
  | nil =>
    intro y hx0 hy hyj
    show containsSub ('`' :: '`' :: '`' :: 'j' :: 's' :: 'o' :: 'n' :: [])
      ('`' :: '`' :: '`' :: y) = false
    rw [containsSub]
    have hp1 : (('`' :: '`' :: '`' :: 'j' :: 's' :: 'o' :: 'n' :: []).isPrefixOf
        ('`' :: '`' :: '`' :: y)) = false := by
      show ((('`' : Char) == '`') && ((('`' : Char) == '`') && ((('`' : Char) == '`')
        && (['j', 's', 'o', 'n'].isPrefixOf y)))) = false
      rw [hyj]
      simp
    rw [hp1, Bool.false_or, containsSub]
    have hp2 : (('`' :: '`' :: '`' :: 'j' :: 's' :: 'o' :: 'n' :: []).isPrefixOf
        ('`' :: '`' :: y)) = false := by
      cases y with
      | nil => rfl
      | cons c ys =>
        have hc : c ≠ '`' := hy c (List.mem_cons_self c _)
        show ((('`' : Char) == '`') && ((('`' : Char) == '`') && ((('`' : Char) == c)
          && (('j' :: 's' :: 'o' :: 'n' :: [] : List Char).isPrefixOf ys)))) = false
        have hb : (('`' : Char) == c) = false := by
          simp [beq_iff_eq]
          exact fun he => hc he.symm
        rw [hb]
        simp
    rw [hp2, Bool.false_or, containsSub]
    have hp3 : (('`' :: '`' :: '`' :: 'j' :: 's' :: 'o' :: 'n' :: []).isPrefixOf
        ('`' :: y)) = false := by
      cases y with
      | nil => rfl
      | cons c ys =>
        have hc : c ≠ '`' := hy c (List.mem_cons_self c _)
        show ((('`' : Char) == '`') && ((('`' : Char) == c) &&
          (('`' :: 'j' :: 's' :: 'o' :: 'n' :: [] : List Char).isPrefixOf ys))) = false
        have hb : (('`' : Char) == c) = false := by
          simp [beq_iff_eq]
          exact fun he => hc he.symm
        rw [hb]
        simp
    rw [hp3, Bool.false_or]
    exact no_occ_of_no_bt _ y hy
  | cons c x2 ih =>
    intro y hx hy hyj
    have hc : c ≠ '`' := hx c (List.mem_cons_self c _)
    show containsSub ('`' :: '`' :: '`' :: 'j' :: 's' :: 'o' :: 'n' :: [])
      (c :: ((x2 ++ ['`', '`', '`']) ++ y)) = false
    rw [containsSub,
      ih y (fun c2 hc2 => hx c2 (List.mem_cons_of_mem c hc2)) hy hyj,
      Bool.or_false]
    show ((('`' : Char) == c) &&
      (('`' :: '`' :: 'j' :: 's' :: 'o' :: 'n' :: [] : List Char).isPrefixOf
        ((x2 ++ ['`', '`', '`']) ++ y))) = false
    have hb : (('`' : Char) == c) = false := by
      simp [beq_iff_eq]
      exact fun he => hc he.symm
    rw [hb, Bool.false_and]

/-- C10: the code-fence cleanup deletes every occurrence of the substrings
"```json" and "```" anywhere in the provider reply — an occurrence deep
inside the text (arbitrary backtick-free prefix and suffix) is removed just
like a leading or trailing marker; consequently a reply whose copy value
itself contains a fence sequence has that interior content altered before
parsing. -/
theorem fence_cleanup_global (x y : List Char)
    (hx : ∀ c ∈ x, c ≠ '`') (hy : ∀ c ∈ y, c ≠ '`')
    (hyj : ['j', 's', 'o', 'n'].isPrefixOf y = false) :
    cleanFences ⟨(x ++ FENCE_JSON.data) ++ y⟩ = pyStrip ⟨x ++ y⟩ ∧
    cleanFences ⟨(x ++ FENCE.data) ++ y⟩ = pyStrip ⟨x ++ y⟩ ∧
    reconcile "\x7b\"plan\": \"a\", \"copy\": \"use ``` fences\"\x7d" =
      RecOutcome.ok "a" "use  fences" := by
  have hfj : FENCE_JSON.data =
      '`' :: ('`' :: '`' :: 'j' :: 's' :: 'o' :: 'n' :: []) := by decide
  have hf3 : FENCE.data = '`' :: ('`' :: '`' :: []) := by decide
  have hxy : ∀ c ∈ x ++ y, c ≠ '`' := by
    intro c hc
    rcases List.mem_append.mp hc with h2 | h2
    · exact hx c h2
    · exact hy c h2
  refine ⟨?_, ?_, rfl⟩
  · show pyStrip ⟨replaceAll FENCE.data [] (replaceAll FENCE_JSON.data []
      ((x ++ FENCE_JSON.data) ++ y))⟩ = pyStrip ⟨x ++ y⟩
    have e1 : replaceAll FENCE_JSON.data [] ((x ++ FENCE_JSON.data) ++ y) = x ++ y := by
      rw [replaceAll, hfj, List.append_assoc]
      have hlen : (x ++ (('`' :: ('`' :: '`' :: 'j' :: 's' :: 'o' :: 'n' :: [])) ++ y)).length
          = x.length + ((6 + y.length) + 1) := by
        simp
        omega
      rw [hlen]
      rw [replaceAllAux_skip_clean ('`' :: '`' :: 'j' :: 's' :: 'o' :: 'n' :: []) [] x
        ((6 + y.length) + 1) (('`' :: ('`' :: '`' :: 'j' :: 's' :: 'o' :: 'n' :: [])) ++ y) hx]
      rw [replaceAllAux_at_pat ('`' :: ('`' :: '`' :: 'j' :: 's' :: 'o' :: 'n' :: [])) []
        (by simp) (6 + y.length) y]
      rw [List.nil_append]
      rw [replaceAllAux_no_occ ('`' :: ('`' :: '`' :: 'j' :: 's' :: 'o' :: 'n' :: [])) []
        (6 + y.length) y (no_occ_of_no_bt _ y hy)]
    have e2 : replaceAll FENCE.data [] (x ++ y) = x ++ y := by
      rw [replaceAll, hf3]
      exact replaceAllAux_no_occ _ _ _ _ (no_occ_of_no_bt _ (x ++ y) hxy)
    rw [e1, e2]
  · show pyStrip ⟨replaceAll FENCE.data [] (replaceAll FENCE_JSON.data []
      ((x ++ FENCE.data) ++ y))⟩ = pyStrip ⟨x ++ y⟩
    have e1 : replaceAll FENCE_JSON.data [] ((x ++ FENCE.data) ++ y)
        = (x ++ FENCE.data) ++ y := by
      rw [replaceAll, hfj, hf3]
      exact replaceAllAux_no_occ _ _ _ _ (no_occ_fj_around_f3 x y hx hy hyj)
    have e2 : replaceAll FENCE.data [] ((x ++ FENCE.data) ++ y) = x ++ y := by
      rw [replaceAll, hf3, List.append_assoc]
      have hlen : (x ++ (('`' :: ('`' :: '`' :: [])) ++ y)).length
          = x.length + ((2 + y.length) + 1) := by
        simp
        omega
      rw [hlen]
      rw [replaceAllAux_skip_clean ('`' :: '`' :: []) [] x ((2 + y.length) + 1)
        (('`' :: ('`' :: '`' :: [])) ++ y) hx]
      rw [replaceAllAux_at_pat ('`' :: ('`' :: '`' :: [])) [] (by simp) (2 + y.length) y]
      rw [List.nil_append]
      rw [replaceAllAux_no_occ ('`' :: ('`' :: '`' :: [])) [] (2 + y.length) y
        (no_occ_of_no_bt _ y hy)]
    rw [e1, e2]

/-- Witness for C10: a fence embedded mid-text is deleted. -/
theorem fence_cleanup_global_witness :
    cleanFences ⟨("before ".data ++ FENCE_JSON.data) ++ " after".data⟩ =
      pyStrip ⟨"before ".data ++ " after".data⟩ := by
  exact (fence_cleanup_global "before ".data " after".data (by decide) (by decide)
    (by decide)).1

/-- Witness for C2: a concrete configured trait in the high band. -/
theorem trait_rules_bands_witness :
    traitRuleFor
      (fun n => if n = "Urgency" then
        some ⟨8, 3, "HIGH", some "MID", "LOW", true⟩ else none)
      "Urgency" 9 = ["HIGH"] := by
  have h := trait_rules_bands
    (fun n => if n = "Urgency" then
      some ⟨8, 3, "HIGH", some "MID", "LOW", true⟩ else none)
    "Urgency" 9 ⟨8, 3, "HIGH", some "MID", "LOW", true⟩ (by decide) (by decide)
  exact h.1 (by decide)

end MFCopy
